import Mathlib

/-!
Verification of the quotation document rendering engine
(`src/server/pdfGenerator.ts`, client utilities and `QuotationView.tsx`).
The TypeScript source is shallowly embedded: pure helpers become Lean
functions, the PDF drawing pipeline becomes a pure trace of placed layout
blocks, and the impure collaborators (logo fetch over HTTP, the clock) are
passed in explicitly as an environment.
-/

namespace GQ

/-! ## JavaScript-style basics -/

/-- Truthiness of an optional JS string: `undefined`, `null` and `""` are falsy. -/
def truthy (o : Option String) : Bool := o.getD "" ≠ ""

/-- Association-list lookup, modelling plain-object property access
`vars[key]` for own properties (prototype-inherited keys are not modelled). -/
def lookupVar (vars : List (String × String)) (key : String) : Option String :=
  match vars with
  | [] => none
  | (k, v) :: rest => if k = key then some v else lookupVar rest key

/-! ## Variable interpolation

`interpolateVars` (src/server/pdfGenerator.ts:98-100) and
`interpolateTemplate` (client formatting utilities) both run
`text.replace(/\$\{(\w+)\}/g, cb)`.  The regex scan is embedded as a
single left-to-right pass: at a literal `"${"` the maximal run of word
characters is taken; if it is nonempty and followed by `"}"` the callback's
result is emitted and scanning resumes after the match, otherwise the scan
advances one character.  The recursion is driven by an explicit fuel equal
to the input length so that the kernel can evaluate it. -/

/-- JS regex `\w`: ASCII letters, digits and underscore. -/
def isWordChar (c : Char) : Bool := c.isAlpha || c.isDigit || c = '_'

/-- One pass of `text.replace(/\$\{(\w+)\}/g, f)` where `f` receives the
whole match and the captured identifier.  `fuel` bounds the recursion and
is always called with at least the input length. -/
def replaceVarsAux (f : String → String → String) : Nat → List Char → List Char
  | 0, l => l
  | _ + 1, [] => []
  | _ + 1, [c] => [c]
  | n + 1, a :: b :: rest =>
      if a = '$' ∧ b = '{' then
        let key := rest.takeWhile isWordChar
        match rest.dropWhile isWordChar with
        | '}' :: tail =>
            if key = [] then a :: replaceVarsAux f n (b :: rest)
            else (f ("$\x7b" ++ String.mk key ++ "\x7d") (String.mk key)).data
                   ++ replaceVarsAux f n tail
        | _ => a :: replaceVarsAux f n (b :: rest)
      else a :: replaceVarsAux f n (b :: rest)

/-- `interpolateVars` (src/server/pdfGenerator.ts:98-100):
`text.replace(/\$\{(\w+)\}/g, (_, key) => vars[key] || "")`.
A key absent from the map, or mapped to the empty string, yields `""`. -/
def interpolateVars (text : String) (vars : List (String × String)) : String :=
  String.mk (replaceVarsAux (fun _ key => (lookupVar vars key).getD "") text.data.length text.data)

/-- `interpolateTemplate` (client formatting utilities):
the callback keeps the whole match when the key has no mapping
(`if (value === undefined) return match`). -/
def interpolateTemplate (template : String) (vars : List (String × String)) : String :=
  String.mk (replaceVarsAux
    (fun matched key => match lookupVar vars key with
      | some v => v
      | none => matched)
    template.data.length template.data)

/-- Abstract token stream of a template: literal characters and `${key}`
placeholders, produced by the same scan as `replaceVarsAux`. -/
inductive Tok where
  | lit (c : Char)
  | ph (key : String)
deriving DecidableEq

/-- Tokenizer with the same fuel discipline and case structure as
`replaceVarsAux`; at fuel 0 the remaining input is emitted as literals. -/
def tokenize : Nat → List Char → List Tok
  | 0, l => l.map Tok.lit
  | _ + 1, [] => []
  | _ + 1, [c] => [Tok.lit c]
  | n + 1, a :: b :: rest =>
      if a = '$' ∧ b = '{' then
        let key := rest.takeWhile isWordChar
        match rest.dropWhile isWordChar with
        | '}' :: tail =>
            if key = [] then Tok.lit a :: tokenize n (b :: rest)
            else Tok.ph (String.mk key) :: tokenize n tail
        | _ => Tok.lit a :: tokenize n (b :: rest)
      else Tok.lit a :: tokenize n (b :: rest)

/-- Render a token stream, resolving each placeholder with `g`. -/
def renderTok (g : String → String) : List Tok → List Char
  | [] => []
  | Tok.lit c :: ts => c :: renderTok g ts
  | Tok.ph k :: ts => (g k).data ++ renderTok g ts

/-! ## JS numbers, `parseFloat` and `Intl` currency formatting

A JavaScript `number` reaching the formatter is modelled as either an
exact decimal `m·10^e` or `NaN`.  (The sources only ever feed decimal
literals or `parseFloat` results to the formatter, so neither binary
floating-point rounding nor the non-finite infinities are modelled; all
arithmetic on these values in the sources is comparison and formatting,
which the exact decimals reproduce.) -/

inductive JSNum where
  | num (m : ℤ) (e : ℤ)
  | nan
deriving DecidableEq

/-- Embed an integer quantity of money/number. -/
def JSNum.ofInt (n : ℤ) : JSNum := JSNum.num n 0

/-- The `number | string` argument type of the server `formatCurrency`. -/
inductive NumOrStr where
  | num (x : JSNum)
  | str (s : String)
deriving DecidableEq

/-- Value of an ASCII digit character. -/
def digitVal (c : Char) : ℕ := c.toNat - 48

/-- Accumulating decimal value of a digit run. -/
def digitsToNat : List Char → ℕ → ℕ
  | [], acc => acc
  | c :: r, acc => digitsToNat r (acc * 10 + digitVal c)

/-- Parse an optional exponent suffix `e[+-]?digits`; an incomplete
exponent (no digits) contributes 0, as in JS `parseFloat`. -/
def parseExp (l : List Char) : ℤ :=
  match l with
  | 'e' :: r | 'E' :: r =>
      let core := fun (sgn : ℤ) (ds : List Char) =>
        if ds.takeWhile Char.isDigit = [] then (0 : ℤ)
        else sgn * (digitsToNat (ds.takeWhile Char.isDigit) 0 : ℤ)
      match r with
      | '-' :: ds => core (-1) ds
      | '+' :: ds => core 1 ds
      | ds => core 1 ds
  | _ => 0

/-- JS `parseFloat`: skip leading whitespace, optional sign, maximal
decimal-literal prefix, `NaN` when no digits are found.  (The `Infinity`
literal and non-decimal corner cases are not modelled.) -/
def jsParseFloat (s : String) : JSNum :=
  let l := s.data.dropWhile (fun c => c = ' ' ∨ c = '\t' ∨ c = '\n' ∨ c = '\r')
  let neg : Bool := match l with
    | '-' :: _ => true
    | _ => false
  let l1 := match l with
    | '-' :: r => r
    | '+' :: r => r
    | _ => l
  let ip := l1.takeWhile Char.isDigit
  let l2 := l1.dropWhile Char.isDigit
  let fp := match l2 with
    | '.' :: r => r.takeWhile Char.isDigit
    | _ => []
  let l3 := match l2 with
    | '.' :: r => r.dropWhile Char.isDigit
    | _ => l2
  if ip = [] ∧ fp = [] then JSNum.nan
  else
    let mant : ℤ := (digitsToNat (ip ++ fp) 0 : ℤ)
    JSNum.num (if neg then -mant else mant) (parseExp l3 - fp.length)

/-- JS `x > 0` where `x` may be `NaN` (`NaN > 0` is false). -/
def jsGtZero : JSNum → Bool
  | JSNum.num m _ => m > 0
  | JSNum.nan => false

/-- Divide `m` by `d` rounding halves away from zero (the default
`halfExpand` rounding of `Intl.NumberFormat`). -/
def divHalfExpand (m : ℤ) (d : ℕ) : ℤ :=
  let q : ℤ := ((m.natAbs + d / 2) / d : ℕ)
  if m < 0 then -q else q

/-- The amount in cents (the currency's minor unit) of a finite JS
number, rounded `halfExpand`. -/
def toCents (m e : ℤ) : ℤ :=
  if 0 ≤ e + 2 then m * (10 : ℤ) ^ (e + 2).toNat
  else divHalfExpand m ((10 : ℕ) ^ (-(e + 2)).toNat)

/-- Insert the pt-BR thousands separator `.` every three digits, on a
reversed digit list. -/
def group3Rev : List Char → List Char
  | [] => []
  | [a] => [a]
  | [a, b] => [a, b]
  | [a, b, c] => [a, b, c]
  | a :: b :: c :: rest => a :: b :: c :: '.' :: group3Rev rest

/-- Group the integer part of a decimal string pt-BR style. -/
def groupThousands (s : String) : String :=
  String.mk (group3Rev s.data.reverse).reverse

/-- Two-digit zero-padded rendering of the cents part. -/
def pad2 (n : ℕ) : String :=
  if n < 10 then "0" ++ toString n else toString n

/-- `new Intl.NumberFormat("pt-BR", { style: "currency", currency: "BRL" })
.format(x)`: `"R$ 1.234,56"` (non-breaking space), `"-R$ …"` for
negatives, and `"R$ NaN"` for a non-finite argument. -/
def intlFormatBRL (x : JSNum) : String :=
  match x with
  | JSNum.nan => "R$ NaN"
  | JSNum.num m e =>
      let cents := toCents m e
      let sign := if cents < 0 then "-" else ""
      let a := cents.natAbs
      sign ++ "R$ " ++ groupThousands (toString (a / 100)) ++ "," ++ pad2 (a % 100)

/-- Server `formatCurrency` (src/server/pdfGenerator.ts:54-60): a string
argument goes through `parseFloat`, then `Intl` formats the number —
including `NaN`, which silently renders as `"R$ NaN"`. -/
def formatCurrency (v : NumOrStr) : String :=
  intlFormatBRL (match v with
    | NumOrStr.num x => x
    | NumOrStr.str s => jsParseFloat s)

/-- Client `formatCurrency` (client formatting utilities): same `Intl`
format applied to a raw number (min/max fraction digits 2 is already the
currency default). -/
def clientFormatCurrency (x : JSNum) : String := intlFormatBRL x

/-! ## Client `formatDate` -/

/-- Portuguese month names used by `Intl.DateTimeFormat("pt-BR", { month:
"long" })`. -/
def monthNamePt (m : ℕ) : String :=
  match m with
  | 1 => "janeiro" | 2 => "fevereiro" | 3 => "março" | 4 => "abril"
  | 5 => "maio" | 6 => "junho" | 7 => "julho" | 8 => "agosto"
  | 9 => "setembro" | 10 => "outubro" | 11 => "novembro" | 12 => "dezembro"
  | _ => ""

/-- Gregorian leap-year test. -/
def isLeap (y : ℕ) : Bool := (y % 4 = 0 ∧ y % 100 ≠ 0) ∨ y % 400 = 0

/-- Days in a month. -/
def daysInMonth (y m : ℕ) : ℕ :=
  if m = 2 then (if isLeap y then 29 else 28)
  else if m = 4 ∨ m = 6 ∨ m = 9 ∨ m = 11 then 30 else 31

/-- Parse `new Date(dateStr + "T12:00:00")` for a strict ISO
`YYYY-MM-DD` input; anything else is an Invalid Date (`none`).  Only the
ISO calendar-date form the application produces is modelled as parseable. -/
def jsParseDateISO (s : String) : Option (ℕ × ℕ × ℕ) :=
  match s.data with
  | [y1, y2, y3, y4, '-', m1, m2, '-', d1, d2] =>
      if (y1.isDigit ∧ y2.isDigit ∧ y3.isDigit ∧ y4.isDigit) ∧
         (m1.isDigit ∧ m2.isDigit) ∧ (d1.isDigit ∧ d2.isDigit) then
        let y := digitsToNat [y1, y2, y3, y4] 0
        let m := digitsToNat [m1, m2] 0
        let d := digitsToNat [d1, d2] 0
        if 1 ≤ m ∧ m ≤ 12 ∧ 1 ≤ d ∧ d ≤ daysInMonth y m then some (y, m, d)
        else none
      else none
  | _ => none

/-- Result of a JS call that can throw. -/
inductive JSResult where
  | ok (s : String)
  | thrown (e : String)
deriving DecidableEq

/-- Client `formatDate` (client formatting utilities): `""` short-circuits
to `""`; otherwise `Intl.DateTimeFormat("pt-BR", { day: "2-digit", month:
"long", year: "numeric" }).format(date)`, which throws a `RangeError` when
the parsed date is invalid.  The throw is modelled as `JSResult.thrown`. -/
def clientFormatDate (dateStr : String) : JSResult :=
  if dateStr = "" then JSResult.ok ""
  else
    match jsParseDateISO dateStr with
    | none => JSResult.thrown "RangeError: Invalid time value"
    | some (y, m, d) =>
        JSResult.ok (pad2 d ++ " de " ++ monthNamePt m ++ " de " ++ toString y)

/-! ## Font size tiers -/

/-- The five semantic font sizes returned by `getFontSize`.  All lengths
in this development are in hundredths of a PDF point, so the source's
`9.5` is `950` here (`sectionSize` is the source's `section`, a Lean
keyword). -/
structure FontSizes where
  title : ℤ
  sectionSize : ℤ
  body : ℤ
  small : ℤ
  mono : ℤ
deriving DecidableEq

/-- `getFontSize` (src/server/pdfGenerator.ts:87-96): a `switch` on the
tier string whose `default` branch returns the medium table
{title 22, section 14, body 9.5, small 8, mono 9.5} (×100 here). -/
def getFontSize (base : String) : FontSizes :=
  if base = "small" then ⟨1800, 1200, 800, 700, 800⟩
  else if base = "large" then ⟨2400, 1600, 1100, 900, 1100⟩
  else ⟨2200, 1400, 950, 800, 950⟩

/-! ## Logo fetch (`fetchImage`, src/server/pdfGenerator.ts:70-85)

The HTTP collaborator is a function from URL to response.  `fetchImage`
recurses into `Location` on a 301/302; a redirect without `Location`, or
any other status, resolves with the concatenated body bytes.  The
recursion is embedded with explicit fuel: `diverged` means the recursion
did not reach a base case within the given fuel. -/

/-- One HTTP response: status code, optional `Location` header, body bytes. -/
structure HttpResp where
  status : ℕ
  location : Option String
  body : List ℕ
deriving DecidableEq

/-- Result of a fueled run of `fetchImage`. -/
inductive FetchResult where
  | ok (bytes : List ℕ)
  | diverged
deriving DecidableEq

/-- The `Location` target when the response is a 301/302 redirect carrying
the header, else `none`. -/
def redirTarget (r : HttpResp) : Option String :=
  match r.status, r.location with
  | 301, some loc => some loc
  | 302, some loc => some loc
  | _, _ => none

/-- Fueled unfolding of `fetchImage` against a response environment. -/
def fetchImageFuel (env : String → HttpResp) : ℕ → String → FetchResult
  | 0, _ => FetchResult.diverged
  | n + 1, url =>
      match redirTarget (env url) with
      | some loc => fetchImageFuel env n loc
      | none => FetchResult.ok (env url).body

/-- The URL reached after following `k` redirect hops from `u` (staying
put once a non-redirect is reached). -/
def chainAt (env : String → HttpResp) : ℕ → String → String
  | 0, u => u
  | k + 1, u =>
      match redirTarget (env u) with
      | some loc => chainAt env k loc
      | none => u

/-! ## Data model (src/server/pdfGenerator.ts:27-50, shared design defaults)

Monetary and numeric record fields are JS numbers (`JSNum`); the three
precomputed totals are strings, exactly as in `QuotationPDFData`. -/

/-- A quotation line item (`QuotationLineItem` of the drizzle schema,
mirrored by the client store's `LineItem`). -/
structure QuotationLineItem where
  id : String
  description : String
  unit : String
  quantity : JSNum
  unitPrice : JSNum
  discount : JSNum
  subtotal : JSNum
deriving DecidableEq

/-- `QuotationConditions`. -/
structure QuotationConditions where
  paymentTerms : String
  deliveryTime : String
  freight : String
  freightValue : JSNum
  warranty : String
deriving DecidableEq

/-- `QuotationTexts` — the six free-text document slots. -/
structure QuotationTexts where
  headerText : String
  introNotes : String
  commercialNotes : String
  technicalNotes : String
  closingNotes : String
  footerText : String
deriving DecidableEq

/-- `QuotationPDFData` (src/server/pdfGenerator.ts:27-45).  Optional
fields are `Option String` (`none` for `null`/`undefined`). -/
structure QuotationPDFData where
  quotationNumber : String
  quotationDate : String
  validityDays : ℤ
  customerName : String
  customerEmail : Option String
  customerPhone : Option String
  customerCompany : Option String
  customerCNPJ : Option String
  customerAddress : Option String
  reference : Option String
  notes : Option String
  items : List QuotationLineItem
  conditions : QuotationConditions
  texts : QuotationTexts
  subtotal : String
  totalDiscount : String
  grandTotal : String
deriving DecidableEq

/-- `CompanyBranding` (src/shared/designDefaults.ts). -/
structure CompanyBranding where
  companyName : String
  companySubtitle : String
  logoUrl : String
  cnpj : String
  phone : String
  email : String
  website : String
  address : String
deriving DecidableEq

/-- `ProposalDesign` (src/shared/designDefaults.ts). -/
structure ProposalDesign where
  headerBgColor : String
  headerTextColor : String
  accentColor : String
  bodyBgColor : String
  bodyTextColor : String
  tableBorderColor : String
  tableHeaderBgColor : String
  tableHeaderTextColor : String
  tableStripedBg : String
  titleFont : String
  bodyFont : String
  monoFont : String
  fontSize : String
  showLogo : Bool
  showBorderLines : Bool
  headerLayout : String
  paperSize : String
deriving DecidableEq

/-- `DEFAULT_COMPANY` (src/shared/designDefaults.ts). -/
def DEFAULT_COMPANY : CompanyBranding :=
  ⟨"Sua Empresa", "Soluções Profissionais",
   "https://files.manuscdn.com/user_upload_by_module/session_file/310419663029168631/DmKchUsoAAxHzwJg.png",
   "", "", "", "", ""⟩

/-- `DEFAULT_PROPOSAL_DESIGN` (src/shared/designDefaults.ts). -/
def DEFAULT_PROPOSAL_DESIGN : ProposalDesign :=
  ⟨"#1A1A2E", "#FFFFFF", "#FF4B4B", "#FFFFFF", "#1A1A2E", "#E2E2EA",
   "#1A1A2E", "#FFFFFF", "#F8F8FC", "DM Sans", "DM Sans", "DM Mono",
   "medium", true, true, "left", "A4"⟩

/-- The optional `{ company?, design? }` override pair of
`generateQuotationPDF` (`options?.company ?? DEFAULT_COMPANY` and
`options?.design ?? DEFAULT_PROPOSAL_DESIGN`). -/
structure PDFOptions where
  company : Option CompanyBranding
  design : Option ProposalDesign
deriving DecidableEq

/-! ## The PDF drawing pipeline as a layout trace

`generateQuotationPDF` (src/server/pdfGenerator.ts:104-515) issues a
linear sequence of drawing commands while threading a cursor `y` and
adding pages.  The embedding records one `Placed` entry per drawn content
block, in source order, with the 0-based page it lands on and its `y`
position in hundredths of a point.  Purely horizontal geometry (column
x-offsets, widths) and colors are functions of the same inputs and are
not recorded.  The height `doc.y - y` of a wrapped free-text paragraph is
PDFKit font metrics, passed in as an oracle `th`. -/

/-- One abstract content block of the rendered document. -/
inductive Block where
  | headerBand
  | accentLine
  | logoImage
  | companyNameText (s : String)
  | companySubtitleText (s : String)
  | proposalTitle
  | infoField (label : String) (value : String)
  | customerSectionHeader
  | customerField (label : String) (value : String)
  | headerTextBlock (s : String)
  | introNotesBlock (s : String)
  | tableHeader
  | tableRow (idx : ℕ) (striped : Bool) (item : QuotationLineItem)
  | totalsSubtotal (s : String)
  | totalsDiscount (s : String)
  | totalsFreight (s : String)
  | totalsGrand (s : String)
  | conditionsSectionHeader
  | conditionField (label : String) (value : String)
  | textSection (title : String) (body : String)
  | footerLine (pageIdx : ℕ) (text : String) (pageLabel : String)
deriving DecidableEq

/-- A block placed on a page (`y` in hundredths of a point). -/
structure Placed where
  page : ℕ
  y : ℤ
  block : Block
deriving DecidableEq

/-- The page/cursor state threaded through the drawing sequence. -/
structure LayoutSt where
  page : ℕ
  y : ℤ
deriving DecidableEq

/-- The interpolation map built at src/server/pdfGenerator.ts:134-148. -/
def varsMap (data : QuotationPDFData) (company : CompanyBranding) : List (String × String) :=
  [("customerName", data.customerName),
   ("customerCompany", data.customerCompany.getD ""),
   ("customerEmail", data.customerEmail.getD ""),
   ("customerPhone", data.customerPhone.getD ""),
   ("quotationNumber", data.quotationNumber),
   ("quotationDate", data.quotationDate),
   ("validityDays", toString data.validityDays),
   ("grandTotal", formatCurrency (NumOrStr.str data.grandTotal)),
   ("subtotal", formatCurrency (NumOrStr.str data.subtotal)),
   ("totalDiscount", formatCurrency (NumOrStr.str data.totalDiscount)),
   ("companyName", company.companyName),
   ("companyPhone", company.phone),
   ("companyEmail", company.email)]

/-- The `for (const field of …) if (field.value) { draw; y += body + 4 }`
loops over customer fields (lines 267-272) and condition fields (lines
428-433), generic in the emitted block constructor. -/
def fieldsLoop (mk : String → String → Block) (step : ℤ) :
    List (String × Option String) → LayoutSt → List Placed × LayoutSt
  | [], st => ([], st)
  | (label, v) :: rest, st =>
      if truthy v then
        let r := fieldsLoop mk step rest ⟨st.page, st.y + step⟩
        (⟨st.page, st.y, mk label (v.getD "")⟩ :: r.1, r.2)
      else fieldsLoop mk step rest st

/-- The item row loop (src/server/pdfGenerator.ts:327-360): before each
row, a page break fires when `y > pageHeight - 80`; the row is shaded when
its absolute index `idx` is odd; the header is not re-emitted. -/
def rowsLoop (pageHeight rowH : ℤ) :
    ℕ → List QuotationLineItem → LayoutSt → List Placed × LayoutSt
  | _, [], st => ([], st)
  | idx, item :: rest, st =>
      let st1 : LayoutSt := if st.y > pageHeight - 8000 then ⟨st.page + 1, 4000⟩ else st
      let r := rowsLoop pageHeight rowH (idx + 1) rest ⟨st1.page, st1.y + rowH⟩
      (⟨st1.page, st1.y, Block.tableRow idx (idx % 2 == 1) item⟩ :: r.1, r.2)

/-- The additional-text sections loop (src/server/pdfGenerator.ts:437-466):
non-empty sections get a page break when `y > pageHeight - 100`, then a
title line and an interpolated body whose wrapped height comes from `th`. -/
def sectionsLoop (pageHeight bodyFs : ℤ) (interp : String → String) (th : String → ℤ) :
    List (String × String) → LayoutSt → List Placed × LayoutSt
  | [], st => ([], st)
  | (title, content) :: rest, st =>
      if content ≠ "" then
        let st1 : LayoutSt := if st.y > pageHeight - 10000 then ⟨st.page + 1, 4000⟩ else st
        let t := interp content
        let r := sectionsLoop pageHeight bodyFs interp th rest
          ⟨st1.page, st1.y + bodyFs + 600 + th t + 1000⟩
        (⟨st1.page, st1.y, Block.textSection title t⟩ :: r.1, r.2)
      else sectionsLoop pageHeight bodyFs interp th rest st

/-- The customer-panel field list (src/server/pdfGenerator.ts:258-265). -/
def customerFieldsOf (data : QuotationPDFData) : List (String × Option String) :=
  [("Cliente", some data.customerName),
   ("Empresa", data.customerCompany),
   ("CNPJ", data.customerCNPJ),
   ("E-mail", data.customerEmail),
   ("Telefone", data.customerPhone),
   ("Endereço", data.customerAddress)]

/-- The condition field list (src/server/pdfGenerator.ts:421-426); the
freight value, when positive, is appended to the freight type label. -/
def condFieldsOf (data : QuotationPDFData) : List (String × Option String) :=
  [("Pagamento", some data.conditions.paymentTerms),
   ("Prazo de Entrega", some data.conditions.deliveryTime),
   ("Frete", some (data.conditions.freight ++
      (if jsGtZero data.conditions.freightValue then
         " (" ++ formatCurrency (NumOrStr.num data.conditions.freightValue) ++ ")" else ""))),
   ("Garantia", some data.conditions.warranty)]

/-- The additional-text section list (src/server/pdfGenerator.ts:437-441). -/
def sectionsOf (texts : QuotationTexts) : List (String × String) :=
  [("Observações Comerciais", texts.commercialNotes),
   ("Observações Técnicas", texts.technicalNotes),
   ("Encerramento", texts.closingNotes)]

/-- The footer text (src/server/pdfGenerator.ts:485-487): interpolated
`texts.footerText` when non-empty, else the synthesized
`company | phone | email` fallback. -/
def footerTextOf (data : QuotationPDFData) (company : CompanyBranding) : String :=
  if data.texts.footerText ≠ "" then
    interpolateVars data.texts.footerText (varsMap data company)
  else
    company.companyName
      ++ (if company.phone ≠ "" then " | " ++ company.phone else "")
      ++ (if company.email ≠ "" then " | " ++ company.email else "")

/-- The page-number label `Página i+1 de N`. -/
def pageLabel (i n : ℕ) : String :=
  "Página " ++ toString (i + 1) ++ " de " ++ toString n

/-- The content pass of `generateQuotationPDF` (src/server/pdfGenerator.ts:
110-466): everything drawn before the footer-stamping pass, together with
the final page/cursor state (from which the buffered page count is
known). -/
def pdfLayoutCore (data : QuotationPDFData) (company : CompanyBranding)
    (design : ProposalDesign) (logoBuffer : Option (List ℕ))
    (th : String → ℤ) : List Placed × LayoutSt :=
  let fsz := getFontSize design.fontSize
  let pageHeight : ℤ := if design.paperSize = "Letter" then 79200 else 84189
  let vars := varsMap data company
  let headerHeight : ℤ := 8000
  let companyNameY : ℤ := headerHeight / 2 - fsz.title / 2 - 200
  let headerBlocks : List Placed :=
    [⟨0, 0, Block.headerBand⟩]
    ++ (if design.showBorderLines then [⟨0, headerHeight, Block.accentLine⟩] else [])
    ++ (if logoBuffer.isSome ∧ design.showLogo then
          [⟨0, (headerHeight - 4500) / 2, Block.logoImage⟩] else [])
    ++ [⟨0, companyNameY, Block.companyNameText company.companyName⟩]
    ++ (if company.companySubtitle ≠ "" then
          [⟨0, companyNameY + fsz.title + 200, Block.companySubtitleText company.companySubtitle⟩]
        else [])
  let st0 : LayoutSt := ⟨0, headerHeight + (if design.showBorderLines then 300 else 0) + 1500⟩
  let st1 : LayoutSt := ⟨st0.page, st0.y + fsz.sectionSize + 800⟩
  let st2 : LayoutSt := ⟨st1.page, st1.y + fsz.body + 600⟩
  let refBlocks : List Placed :=
    if truthy data.reference then
      [⟨st2.page, st2.y, Block.infoField "Ref." (data.reference.getD "")⟩] else []
  let st3 : LayoutSt := ⟨st2.page, st2.y + fsz.body + 1200⟩
  let st4 : LayoutSt := ⟨st3.page, st3.y + fsz.sectionSize + 1600⟩
  let custRes := fieldsLoop Block.customerField (fsz.body + 400) (customerFieldsOf data) st4
  let st5 : LayoutSt := ⟨custRes.2.page, custRes.2.y + 1200⟩
  let htRes : List Placed × LayoutSt :=
    if data.texts.headerText ≠ "" then
      let t := interpolateVars data.texts.headerText vars
      ([⟨st5.page, st5.y, Block.headerTextBlock t⟩], ⟨st5.page, st5.y + th t + 1000⟩)
    else ([], st5)
  let inRes : List Placed × LayoutSt :=
    if data.texts.introNotes ≠ "" then
      let t := interpolateVars data.texts.introNotes vars
      ([⟨htRes.2.page, htRes.2.y, Block.introNotesBlock t⟩],
       ⟨htRes.2.page, htRes.2.y + th t + 1200⟩)
    else ([], htRes.2)
  let st8 : LayoutSt :=
    if inRes.2.y > pageHeight - 25000 then ⟨inRes.2.page + 1, 4000⟩ else inRes.2
  let st9 : LayoutSt := ⟨st8.page, st8.y + fsz.body + 1000⟩
  let rowsRes := rowsLoop pageHeight (fsz.body + 800) 0 data.items st9
  let st11 : LayoutSt := ⟨rowsRes.2.page, rowsRes.2.y + 600⟩
  let stSub : LayoutSt := ⟨st11.page, st11.y + fsz.body + 400⟩
  let discRes : List Placed × LayoutSt :=
    if jsGtZero (jsParseFloat data.totalDiscount) then
      ([⟨stSub.page, stSub.y, Block.totalsDiscount ("-" ++ formatCurrency (NumOrStr.str data.totalDiscount))⟩],
       ⟨stSub.page, stSub.y + fsz.body + 400⟩)
    else ([], stSub)
  let frRes : List Placed × LayoutSt :=
    if jsGtZero data.conditions.freightValue then
      ([⟨discRes.2.page, discRes.2.y, Block.totalsFreight (formatCurrency (NumOrStr.num data.conditions.freightValue))⟩],
       ⟨discRes.2.page, discRes.2.y + fsz.body + 400⟩)
    else ([], discRes.2)
  let stG : LayoutSt := ⟨frRes.2.page, frRes.2.y + 200⟩
  let st12 : LayoutSt := ⟨stG.page, stG.y + fsz.sectionSize + 1800⟩
  let st13 : LayoutSt :=
    if st12.y > pageHeight - 20000 then ⟨st12.page + 1, 4000⟩ else st12
  let st14 : LayoutSt := ⟨st13.page, st13.y + fsz.sectionSize + 1600⟩
  let condRes := fieldsLoop Block.conditionField (fsz.body + 400) (condFieldsOf data) st14
  let st15 : LayoutSt := ⟨condRes.2.page, condRes.2.y + 1200⟩
  let secRes := sectionsLoop pageHeight fsz.body (fun c => interpolateVars c vars) th
    (sectionsOf data.texts) st15
  (headerBlocks
   ++ [⟨st0.page, st0.y, Block.proposalTitle⟩,
       ⟨st1.page, st1.y, Block.infoField "Nº" data.quotationNumber⟩,
       ⟨st1.page, st1.y, Block.infoField "Data" data.quotationDate⟩,
       ⟨st2.page, st2.y, Block.infoField "Validade" (toString data.validityDays ++ " dias")⟩]
   ++ refBlocks
   ++ [⟨st3.page, st3.y, Block.customerSectionHeader⟩]
   ++ custRes.1
   ++ htRes.1
   ++ inRes.1
   ++ [⟨st8.page, st8.y, Block.tableHeader⟩]
   ++ rowsRes.1
   ++ [⟨st11.page, st11.y, Block.totalsSubtotal (formatCurrency (NumOrStr.str data.subtotal))⟩]
   ++ discRes.1
   ++ frRes.1
   ++ [⟨stG.page, stG.y, Block.totalsGrand (formatCurrency (NumOrStr.str data.grandTotal))⟩,
       ⟨st13.page, st13.y, Block.conditionsSectionHeader⟩]
   ++ condRes.1
   ++ secRes.1, secRes.2)

/-- The full drawing sequence of `generateQuotationPDF` after option
defaulting and logo fetching (src/server/pdfGenerator.ts:110-506): the
content pass, then the footer-stamping pass over all buffered pages
(`pages.count = final page + 1`, footer at `pageHeight - 30`). -/
def pdfLayout (data : QuotationPDFData) (company : CompanyBranding)
    (design : ProposalDesign) (logoBuffer : Option (List ℕ))
    (th : String → ℤ) : List Placed :=
  let pageHeight : ℤ := if design.paperSize = "Letter" then 79200 else 84189
  let core := pdfLayoutCore data company design logoBuffer th
  let count := core.2.page + 1
  core.1 ++ (List.range count).map (fun i =>
    ⟨i, pageHeight - 3000, Block.footerLine i (footerTextOf data company) (pageLabel i count)⟩)

/-- The impure collaborators of a render call: the HTTP logo fetch
(`none` models a failed fetch, whose exception is caught and logged) and
the wall clock (unused by the source, present so that clock-independence
is expressible). -/
structure RenderEnv where
  fetchLogo : String → Option (List ℕ)
  now : ℕ

/-- `generateQuotationPDF` (src/server/pdfGenerator.ts:104-515): option
defaulting, the guarded logo fetch (`design.showLogo && company.logoUrl`),
then the drawing pipeline. -/
def generateQuotationPDF (data : QuotationPDFData) (options : PDFOptions)
    (env : RenderEnv) (th : String → ℤ) : List Placed :=
  let company := options.company.getD DEFAULT_COMPANY
  let design := options.design.getD DEFAULT_PROPOSAL_DESIGN
  let logoBuffer : Option (List ℕ) :=
    if design.showLogo ∧ company.logoUrl ≠ "" then env.fetchLogo company.logoUrl
    else none
  pdfLayout data company design logoBuffer th

/-! ## Screen renderer rows (src/client/src/pages/QuotationView.tsx)

`items.map((item, idx) => <tr style={{ backgroundColor: idx % 2 === 1 ?
d.tableStripedBg : "transparent" }}>…)` — the same absolute-index striping
as the PDF table.  Only the striping-relevant parts of the row markup are
recorded. -/

/-- One rendered screen table row. -/
structure ScreenRow where
  idx : ℕ
  striped : Bool
  description : String
deriving DecidableEq

/-- The screen renderer's row list (absolute index over the full item
list; `item.description || "—"`). -/
def screenRowsFrom : ℕ → List QuotationLineItem → List ScreenRow
  | _, [] => []
  | idx, item :: rest =>
      ⟨idx, idx % 2 == 1, if item.description ≠ "" then item.description else "—"⟩
        :: screenRowsFrom (idx + 1) rest

/-- The rows of the screen item table. -/
def screenItemRows (items : List QuotationLineItem) : List ScreenRow :=
  screenRowsFrom 0 items

/-! ## Lemmas: the interpolation scan -/

/-- Rendering a pure-literal token stream is the identity. -/
theorem renderTok_map_lit (g : String → String) (l : List Char) :
    renderTok g (l.map Tok.lit) = l := by
  induction l with
  | nil => rfl
  | cons c r ih => simp [renderTok, ih]

/-- The one-pass replace is the tokenizer followed by rendering, where
each placeholder `key` resolves to `f "${key}" key`. -/
theorem replaceVarsAux_eq_renderTok (f : String → String → String) :
    ∀ (n : ℕ) (l : List Char),
    replaceVarsAux f n l = renderTok (fun k => f ("$\x7b" ++ k ++ "\x7d") k) (tokenize n l) := by
  intro n
  induction n with
  | zero => intro l; simp [replaceVarsAux, tokenize, renderTok_map_lit]
  | succ n ih =>
      intro l
      match l with
      | [] => rfl
      | [c] => rfl
      | a :: b :: rest =>
          by_cases hab : a = '$' ∧ b = '{'
          · rcases hd : rest.dropWhile isWordChar with _ | ⟨c, tail⟩
            · simp only [replaceVarsAux, tokenize, hab, if_true, hd, renderTok, ih]
              simp
            · by_cases hc : c = '}'
              · subst hc
                by_cases hkey : rest.takeWhile isWordChar = []
                · simp only [replaceVarsAux, tokenize, hab, if_true, hd, hkey, if_pos,
                    renderTok, ih]
                  simp
                · simp only [replaceVarsAux, tokenize, hab, if_true, hd, hkey, if_neg,
                    not_false_iff, renderTok, ih]
                  simp
              · have : (match rest.dropWhile isWordChar with
                    | '}' :: tail => true
                    | _ => false) = false := by rw [hd]; cases c <;> simp_all
                simp only [replaceVarsAux, tokenize, hab, if_true, hd, renderTok, ih]
                cases c <;> simp_all [renderTok]
          · simp only [replaceVarsAux, tokenize, hab, if_false, renderTok, ih]

/-- The scan of the empty input is empty at every fuel. -/
theorem replaceVarsAux_nil (f : String → String → String) :
    ∀ n, replaceVarsAux f n [] = [] := by
  intro n; cases n <;> rfl

/-- `takeWhile`/`dropWhile` on a run of satisfying elements followed by a
failing one. -/
theorem takeWhile_dropWhile_append (p : Char → Bool) :
    ∀ (ks : List Char) (x : Char) (rest : List Char),
    (∀ c ∈ ks, p c = true) → p x = false →
    (ks ++ x :: rest).takeWhile p = ks ∧ (ks ++ x :: rest).dropWhile p = x :: rest := by
  intro ks
  induction ks with
  | nil => intro x rest _ hx; simp [List.takeWhile, List.dropWhile, hx]
  | cons c r ih =>
      intro x rest hall hx
      have hc : p c = true := hall c (by simp)
      have hr := ih x rest (fun d hd => hall d (by simp [hd])) hx
      simp [List.takeWhile, List.dropWhile, hc, hr.1, hr.2]

/-- A lone well-formed placeholder is replaced by the callback's value. -/
theorem replaceVarsAux_single_ph (f : String → String → String)
    (n : ℕ) (ks : List Char) (h1 : ks ≠ []) (h2 : ∀ c ∈ ks, isWordChar c = true) :
    replaceVarsAux f (n + 1) ('$' :: '{' :: (ks ++ ['}'])) =
      (f ("$\x7b" ++ String.mk ks ++ "\x7d") (String.mk ks)).data := by
  have hw := takeWhile_dropWhile_append isWordChar ks '}' [] h2 (by decide)
  simp [replaceVarsAux, hw.1, hw.2, h1, replaceVarsAux_nil]

/-- String extensionality via the character list. -/
theorem string_mk_data (s : String) : String.mk s.data = s := rfl

/-- Rendering only depends on the policy pointwise. -/
theorem renderTok_congr {g1 g2 : String → String} (h : ∀ k, g1 k = g2 k) :
    ∀ ts, renderTok g1 ts = renderTok g2 ts := by
  intro ts
  induction ts with
  | nil => rfl
  | cons t r ih => cases t <;> simp [renderTok, ih, h]

/-- C2 — counterexample.  The claim states that in the PDF interpolation
path (`interpolateVars`) a `${identifier}` whose identifier is not in the
mapping is left literally untouched; in fact `vars[key] || ""` replaces it
with the empty string: on the template `"Valor: ${total}"` with an empty
mapping the output drops the placeholder entirely. -/
theorem C2_unknown_identifier_cex :
    interpolateVars "Valor: ${total}" [] = "Valor: " ∧
    interpolateTemplate "Valor: ${total}" [] = "Valor: ${total}" ∧
    ("Valor: " : String) ≠ "Valor: ${total}" := by
  refine ⟨by decide, by decide, by decide⟩

/-- C2 (amended): both interpolation paths perform one left-to-right scan
replacing every literal `${identifier}` (identifier = 1+ word characters)
whose identifier is in the mapping by the mapped value and never failing;
an identifier with no mapping is kept literally by the screen path
(`interpolateTemplate`) but is replaced by the empty string by the PDF
path (`interpolateVars`).  Stated as: each path equals rendering the
template's token stream under its respective resolution policy. -/
theorem C2_interpolation_paths (text : String) (vars : List (String × String)) :
    interpolateTemplate text vars
      = String.mk (renderTok (fun k => (lookupVar vars k).getD ("$\x7b" ++ k ++ "\x7d"))
          (tokenize text.data.length text.data))
    ∧ interpolateVars text vars
      = String.mk (renderTok (fun k => (lookupVar vars k).getD "")
          (tokenize text.data.length text.data)) := by
  constructor
  · unfold interpolateTemplate
    rw [replaceVarsAux_eq_renderTok]
    congr 1
    apply renderTok_congr
    intro k
    cases lookupVar vars k <;> rfl
  · unfold interpolateVars
    rw [replaceVarsAux_eq_renderTok]

/-- C9: no recursive expansion.  If the mapping sends `key` to a value `v`
that itself contains a placeholder pattern `${k2}`, interpolating the
template `"${key}"` yields exactly `v` in both paths: the substituted
value is emitted verbatim and never re-scanned, even when `k2` is itself
in the mapping. -/
theorem C9_no_recursive_expansion (vars : List (String × String))
    (key v p k2 q : String)
    (hks : key.data ≠ []) (hkw : ∀ c ∈ key.data, isWordChar c = true)
    (hv : lookupVar vars key = some v)
    (hshape : v = p ++ "$\x7b" ++ k2 ++ "\x7d" ++ q) :
    interpolateTemplate ("$\x7b" ++ key ++ "\x7d") vars = v ∧
    interpolateVars ("$\x7b" ++ key ++ "\x7d") vars = v := by
  have hdata : ("$\x7b" ++ key ++ "\x7d").data = '$' :: '{' :: (key.data ++ ['}']) := by
    simp [String.data_append]
  constructor
  · unfold interpolateTemplate
    rw [hdata]
    simp only [List.length_cons]
    rw [replaceVarsAux_single_ph _ _ _ hks hkw]
    simp [string_mk_data, hv]
  · unfold interpolateVars
    rw [hdata]
    simp only [List.length_cons]
    rw [replaceVarsAux_single_ph _ _ _ hks hkw]
    simp [string_mk_data, hv]

/-- C9 — witness: with `a ↦ "${b}"` and `b ↦ "X"` in the mapping, the
template `"${a}"` interpolates to `"${b}"` (not `"X"`) in both paths. -/
theorem C9_no_recursive_expansion_witness :
    interpolateTemplate "${a}" [("a", "${b}"), ("b", "X")] = "${b}" ∧
    interpolateVars "${a}" [("a", "${b}"), ("b", "X")] = "${b}" := by
  have h := C9_no_recursive_expansion [("a", "${b}"), ("b", "X")] "a" "${b}" "" "b" ""
    (by decide) (by decide) (by decide)
    (by decide)
  exact h

/-! ## Claims C7 (formatter failure modes) and C10 (font-size totality) -/

/-- C7 — counterexample.  The claim states that a non-finite or
unparseable amount makes `formatCurrency` fail with a FormatError; in
fact both the server formatter (via `parseFloat`) and the client
formatter return the string `"R$ NaN"` silently. -/
theorem C7_format_error_cex :
    formatCurrency (NumOrStr.str "abc") = "R$ NaN" ∧
    clientFormatCurrency JSNum.nan = "R$ NaN" := by
  exact ⟨by decide, by decide⟩

/-- C7 (amended): no FormatError exists.  `formatCurrency` (server and
client) never fails: a non-finite or unparseable amount silently formats
as `"R$ NaN"`.  `formatDate` returns `""` for the empty string and throws
a `RangeError` (an exception from `Intl`, not a FormatError result) for a
non-empty unparseable date string, rather than returning an invalid-date
string. -/
theorem C7_formatter_failure_modes (s d : String)
    (hs : jsParseFloat s = JSNum.nan) (hd : d ≠ "") (hdp : jsParseDateISO d = none) :
    formatCurrency (NumOrStr.str s) = "R$ NaN" ∧
    clientFormatCurrency JSNum.nan = "R$ NaN" ∧
    clientFormatDate d = JSResult.thrown "RangeError: Invalid time value" ∧
    clientFormatDate "" = JSResult.ok "" := by
  refine ⟨?_, by decide, ?_, by decide⟩
  · simp [formatCurrency, hs, intlFormatBRL]
  · simp [clientFormatDate, hd, hdp]

/-- C7 — witness at `s = "abc"`, `d = "31/02/2026"`. -/
theorem C7_formatter_failure_modes_witness :
    formatCurrency (NumOrStr.str "abc") = "R$ NaN" ∧
    clientFormatCurrency JSNum.nan = "R$ NaN" ∧
    clientFormatDate "31/02/2026" = JSResult.thrown "RangeError: Invalid time value" ∧
    clientFormatDate "" = JSResult.ok "" :=
  C7_formatter_failure_modes "abc" "31/02/2026" (by decide) (by decide) (by decide)

/-- C10: `getFontSize` is total, and every tier string other than
`"small"` and `"large"` — including `""` and arbitrary values — falls to
the `default` branch returning the medium table {title 22, section 14,
body 9.5, small 8, mono 9.5} (×100 in this development's length units),
so a render never fails on an unknown tier. -/
theorem C10_getFontSize_total (s : String) (h1 : s ≠ "small") (h2 : s ≠ "large") :
    getFontSize s = ⟨2200, 1400, 950, 800, 950⟩ := by
  simp [getFontSize, h1, h2]

/-- C10 — witness at `""` and `"enorme"`. -/
theorem C10_getFontSize_total_witness :
    getFontSize "" = ⟨2200, 1400, 950, 800, 950⟩ ∧
    getFontSize "enorme" = ⟨2200, 1400, 950, 800, 950⟩ :=
  ⟨C10_getFontSize_total "" (by decide) (by decide),
   C10_getFontSize_total "enorme" (by decide) (by decide)⟩

/-! ## Claim C6 — redirect following in `fetchImage` -/

/-- A two-redirect chain: `u0 → u1 → u2 → body [2]`. -/
def chainEnvTwoHops : String → HttpResp := fun url =>
  if url = "u0" then ⟨302, some "u1", [0]⟩
  else if url = "u1" then ⟨302, some "u2", [1]⟩
  else if url = "u2" then ⟨200, none, [2]⟩
  else ⟨404, none, [9]⟩

/-- A redirect cycle: `a → b → a → …`. -/
def cycleEnv : String → HttpResp := fun url =>
  if url = "a" then ⟨301, some "b", [0]⟩
  else if url = "b" then ⟨302, some "a", [1]⟩
  else ⟨200, none, [9]⟩

/-- C6 — counterexample.  The claim states `fetchImage` follows at most
one 301/302 hop and terminates on every response sequence.  In fact, from
`u0` in a two-redirect chain it follows both hops and returns the third
response's body (`[2]`, not the bytes of the one-hop response `u1`), and
on a redirect cycle its unfolding never reaches a base case even with
fuel 50. -/
theorem C6_single_redirect_cex :
    fetchImageFuel chainEnvTwoHops 10 "u0" = FetchResult.ok [2] ∧
    ([2] : List ℕ) ≠ (chainEnvTwoHops "u1").body ∧
    fetchImageFuel cycleEnv 50 "a" = FetchResult.diverged := by
  exact ⟨by decide, by decide, by decide⟩

/-- C6 (amended): `fetchImage` transparently follows every 301/302
response carrying a `Location` header, recursively and without bound: a
non-redirect response (or a redirect lacking `Location`) resolves with
that response's body, a redirecting response defers to the fetch of its
target, and a response sequence that keeps redirecting (e.g. a cycle)
never terminates — the fueled unfolding diverges for every fuel. -/
theorem C6_redirect_following (env : String → HttpResp) (url : String) (n : ℕ) :
    (redirTarget (env url) = none →
      ∀ m, fetchImageFuel env (m + 1) url = FetchResult.ok (env url).body) ∧
    (∀ loc, redirTarget (env url) = some loc →
      ∀ m, fetchImageFuel env (m + 1) url = fetchImageFuel env m loc) ∧
    ((∀ k, k < n → (redirTarget (env (chainAt env k url))).isSome) →
      fetchImageFuel env n url = FetchResult.diverged) := by
  refine ⟨fun h m => by simp [fetchImageFuel, h], fun loc h m => by simp [fetchImageFuel, h], ?_⟩
  induction n generalizing url with
  | zero => intro _; rfl
  | succ n ih =>
      intro h
      have h0 := h 0 (Nat.succ_pos n)
      rcases hr : redirTarget (env url) with _ | loc
      · rw [chainAt] at h0; simp [hr] at h0
      · rw [show fetchImageFuel env (n + 1) url = fetchImageFuel env n loc by
          simp [fetchImageFuel, hr]]
        apply ih
        intro k hk
        have := h (k + 1) (Nat.succ_lt_succ hk)
        rw [chainAt, hr] at this
        exact this

/-- C6 — witness: on the cycle environment with fuel 7 the amended
theorem's divergence clause applies. -/
theorem C6_redirect_following_witness :
    fetchImageFuel cycleEnv 7 "a" = FetchResult.diverged :=
  (C6_redirect_following cycleEnv "a" 7).2.2 (by decide)

/-! ## Block-level structure of the layout trace

The block sequence emitted by the content pass does not depend on the
geometry state (pages and cursor positions only decide *where* blocks
land, never *which* blocks are emitted), so it can be described by a pure
list.  `pdfContentBlocks` is that description and
`pdfLayoutCore_blocks` proves the content pass refines it. -/

/-- The blocks of the item rows: absolute indices from `idx`, striped
exactly on odd absolute index. -/
def rowBlocksPure : ℕ → List QuotationLineItem → List Block
  | _, [] => []
  | idx, item :: rest => Block.tableRow idx (idx % 2 == 1) item :: rowBlocksPure (idx + 1) rest

/-- The block sequence of the content pass, geometry erased. -/
def pdfContentBlocks (data : QuotationPDFData) (company : CompanyBranding)
    (design : ProposalDesign) (logoBuffer : Option (List ℕ)) : List Block :=
  let vars := varsMap data company
  ([Block.headerBand]
   ++ (if design.showBorderLines then [Block.accentLine] else [])
   ++ (if logoBuffer.isSome ∧ design.showLogo then [Block.logoImage] else [])
   ++ [Block.companyNameText company.companyName]
   ++ (if company.companySubtitle ≠ "" then
         [Block.companySubtitleText company.companySubtitle] else []))
  ++ [Block.proposalTitle,
      Block.infoField "Nº" data.quotationNumber,
      Block.infoField "Data" data.quotationDate,
      Block.infoField "Validade" (toString data.validityDays ++ " dias")]
  ++ (if truthy data.reference then [Block.infoField "Ref." (data.reference.getD "")] else [])
  ++ [Block.customerSectionHeader]
  ++ ((customerFieldsOf data).filter (fun pr => truthy pr.2)).map
       (fun pr => Block.customerField pr.1 (pr.2.getD ""))
  ++ (if data.texts.headerText ≠ "" then
        [Block.headerTextBlock (interpolateVars data.texts.headerText vars)] else [])
  ++ (if data.texts.introNotes ≠ "" then
        [Block.introNotesBlock (interpolateVars data.texts.introNotes vars)] else [])
  ++ [Block.tableHeader]
  ++ rowBlocksPure 0 data.items
  ++ [Block.totalsSubtotal (formatCurrency (NumOrStr.str data.subtotal))]
  ++ (if jsGtZero (jsParseFloat data.totalDiscount) then
        [Block.totalsDiscount ("-" ++ formatCurrency (NumOrStr.str data.totalDiscount))] else [])
  ++ (if jsGtZero data.conditions.freightValue then
        [Block.totalsFreight (formatCurrency (NumOrStr.num data.conditions.freightValue))] else [])
  ++ [Block.totalsGrand (formatCurrency (NumOrStr.str data.grandTotal)),
      Block.conditionsSectionHeader]
  ++ ((condFieldsOf data).filter (fun pr => truthy pr.2)).map
       (fun pr => Block.conditionField pr.1 (pr.2.getD ""))
  ++ ((sectionsOf data.texts).filter (fun sec => sec.2 ≠ "")).map
       (fun sec => Block.textSection sec.1 (interpolateVars sec.2 vars))

/-- The blocks of a field loop are the truthy fields, in order. -/
theorem fieldsLoop_blocks (mk : String → String → Block) (step : ℤ) :
    ∀ (l : List (String × Option String)) (st : LayoutSt),
    (fieldsLoop mk step l st).1.map (fun p => p.block)
      = (l.filter (fun pr => truthy pr.2)).map (fun pr => mk pr.1 (pr.2.getD "")) := by
  intro l
  induction l with
  | nil => intro st; rfl
  | cons pr rest ih =>
      intro st
      by_cases h : truthy pr.2
      · simp [fieldsLoop, h, ih]
      · simp [fieldsLoop, h, ih]

/-- The blocks of the row loop are `rowBlocksPure`. -/
theorem rowsLoop_blocks (pageHeight rowH : ℤ) :
    ∀ (items : List QuotationLineItem) (idx : ℕ) (st : LayoutSt),
    (rowsLoop pageHeight rowH idx items st).1.map (fun p => p.block)
      = rowBlocksPure idx items := by
  intro items
  induction items with
  | nil => intro idx st; rfl
  | cons item rest ih =>
      intro idx st
      simp [rowsLoop, rowBlocksPure, ih]

/-- The blocks of the sections loop are the non-empty sections,
interpolated. -/
theorem sectionsLoop_blocks (pageHeight bodyFs : ℤ) (interp : String → String)
    (th : String → ℤ) :
    ∀ (l : List (String × String)) (st : LayoutSt),
    (sectionsLoop pageHeight bodyFs interp th l st).1.map (fun p => p.block)
      = (l.filter (fun sec => sec.2 ≠ "")).map
          (fun sec => Block.textSection sec.1 (interp sec.2)) := by
  intro l
  induction l with
  | nil => intro st; rfl
  | cons sec rest ih =>
      intro st
      by_cases h : sec.2 = ""
      · simp [sectionsLoop, h, ih]
      · simp [sectionsLoop, h, ih]

/-- Mapping the block projection over a conditional singleton. -/
theorem map_block_ite_singleton (c : Prop) [Decidable c] (pl : Placed) :
    (if c then [pl] else []).map (fun p => p.block)
      = if c then [pl.block] else [] := by
  split <;> rfl

/-- First component of a conditional `(blocks, state)` pair. -/
theorem fst_ite_pair {α β : Type} (c : Prop) [Decidable c] (x1 : α) (s1 s2 : β) :
    (if c then ([x1], s1) else (([] : List α), s2)).1 = if c then [x1] else [] := by
  split <;> rfl

/-- The content pass emits exactly the blocks of `pdfContentBlocks`. -/
theorem pdfLayoutCore_blocks (data : QuotationPDFData) (company : CompanyBranding)
    (design : ProposalDesign) (logoBuffer : Option (List ℕ)) (th : String → ℤ) :
    (pdfLayoutCore data company design logoBuffer th).1.map (fun p => p.block)
      = pdfContentBlocks data company design logoBuffer := by
  simp only [pdfLayoutCore, pdfContentBlocks, fst_ite_pair, List.map_append,
    List.map_cons, List.map_nil, map_block_ite_singleton,
    fieldsLoop_blocks, rowsLoop_blocks, sectionsLoop_blocks]

/-! ## Counting blocks in the rendered trace -/

/-- The block sequence of a full render. -/
def renderedBlocks (data : QuotationPDFData) (opts : PDFOptions)
    (env : RenderEnv) (th : String → ℤ) : List Block :=
  (generateQuotationPDF data opts env th).map (fun p => p.block)

/-- Is the block the item-table header? -/
def isTableHeaderB : Block → Bool
  | Block.tableHeader => true
  | _ => false

/-- Is the block the item row of absolute index `i`? -/
def isRowIdxB (i : ℕ) : Block → Bool
  | Block.tableRow j _ _ => j == i
  | _ => false

/-- Is the block a striped (shaded) row of absolute index `i`? -/
def isStripedRowIdxB (i : ℕ) : Block → Bool
  | Block.tableRow j s _ => j == i && s
  | _ => false

/-- Is the block a customer-panel field labelled `l`? -/
def isCustomerLabelB (l : String) : Block → Bool
  | Block.customerField lb _ => lb == l
  | _ => false

/-- Is the block a conditions field labelled `l`? -/
def isCondLabelB (l : String) : Block → Bool
  | Block.conditionField lb _ => lb == l
  | _ => false

/-- Is the block the totals-panel freight line? -/
def isTotalsFreightB : Block → Bool
  | Block.totalsFreight _ => true
  | _ => false

/-- Is the block one of the four totals-panel lines? -/
def isTotalsB : Block → Bool
  | Block.totalsSubtotal _ => true
  | Block.totalsDiscount _ => true
  | Block.totalsFreight _ => true
  | Block.totalsGrand _ => true
  | _ => false

/-- A mapped list contains no block satisfying `p` when `p` rejects the
image of `f`. -/
theorem countP_map_zero {α : Type} (p : Block → Bool) (f : α → Block)
    (h : ∀ a, p (f a) = false) : ∀ l : List α, (l.map f).countP p = 0 := by
  intro l
  induction l with
  | nil => rfl
  | cons a r ih => simp [List.countP_cons, h, ih]

/-- Counting over a filtered map. -/
theorem countP_filter_map {α : Type} (p : Block → Bool) (q : α → Bool) (f : α → Block) :
    ∀ l : List α, ((l.filter q).map f).countP p
      = l.countP (fun a => q a && p (f a)) := by
  intro l
  induction l with
  | nil => rfl
  | cons a r ih =>
      by_cases hq : q a
      · simp [List.filter_cons, hq, List.countP_cons, ih]
      · simp [List.filter_cons, hq, List.countP_cons, ih]

/-- `countP` over a conditional singleton. -/
theorem countP_ite_singleton (p : Block → Bool) (c : Prop) [Decidable c] (b : Block) :
    (if c then [b] else []).countP p
      = if c then (if p b then 1 else 0) else 0 := by
  split <;> simp [List.countP_cons]

/-- `filter` over a conditional singleton. -/
theorem filter_ite_singleton (p : Block → Bool) (c : Prop) [Decidable c] (b : Block) :
    (if c then [b] else []).filter p
      = if c then (if p b then [b] else []) else [] := by
  split <;> simp [List.filter_cons]

/-- Row blocks contain nothing but rows. -/
theorem rowBlocksPure_countP_zero (p : Block → Bool)
    (h : ∀ i s it, p (Block.tableRow i s it) = false) :
    ∀ (items : List QuotationLineItem) (idx : ℕ),
    (rowBlocksPure idx items).countP p = 0 := by
  intro items
  induction items with
  | nil => intro idx; rfl
  | cons it rest ih => intro idx; simp [rowBlocksPure, List.countP_cons, h, ih]

/-- Nothing but rows satisfies no filter on rows either. -/
theorem rowBlocksPure_filter_nil (p : Block → Bool)
    (h : ∀ i s it, p (Block.tableRow i s it) = false) :
    ∀ (items : List QuotationLineItem) (idx : ℕ),
    (rowBlocksPure idx items).filter p = [] := by
  intro items
  induction items with
  | nil => intro idx; rfl
  | cons it rest ih => intro idx; simp [rowBlocksPure, List.filter_cons, h, ih]

/-- Exactly one row block carries each absolute index in range. -/
theorem rowBlocksPure_countP_idx (i : ℕ) :
    ∀ (items : List QuotationLineItem) (idx : ℕ),
    (rowBlocksPure idx items).countP (isRowIdxB i)
      = if idx ≤ i ∧ i < idx + items.length then 1 else 0 := by
  intro items
  induction items with
  | nil =>
      intro idx
      have h1 : ¬(idx ≤ i ∧ i < idx + ([] : List QuotationLineItem).length) := by
        simp only [List.length_nil]
        omega
      rw [if_neg h1]
      rfl
  | cons it rest ih =>
      intro idx
      simp only [rowBlocksPure, List.countP_cons, ih (idx + 1), isRowIdxB, List.length_cons]
      by_cases h : idx = i
      · subst h
        have h1 : ¬(idx + 1 ≤ idx ∧ idx < idx + 1 + rest.length) := by omega
        have h2 : idx ≤ idx ∧ idx < idx + (rest.length + 1) := ⟨Nat.le_refl idx, by omega⟩
        rw [if_neg h1, if_pos h2]
        simp
      · have h3 : (idx + 1 ≤ i ∧ i < idx + 1 + rest.length)
            ↔ (idx ≤ i ∧ i < idx + (rest.length + 1)) := by omega
        rw [if_congr h3 rfl rfl]
        have h4 : (idx == i) = false := by simpa using h
        simp [h4]

/-- The striped row with absolute index `i` exists exactly when `i` is
odd (and `i` indexes an item). -/
theorem rowBlocksPure_countP_striped (i : ℕ) :
    ∀ (items : List QuotationLineItem) (idx : ℕ),
    (rowBlocksPure idx items).countP (isStripedRowIdxB i)
      = if idx ≤ i ∧ i < idx + items.length ∧ i % 2 = 1 then 1 else 0 := by
  intro items
  induction items with
  | nil =>
      intro idx
      have h1 : ¬(idx ≤ i ∧ i < idx + ([] : List QuotationLineItem).length ∧ i % 2 = 1) := by
        simp only [List.length_nil]
        omega
      rw [if_neg h1]
      rfl
  | cons it rest ih =>
      intro idx
      simp only [rowBlocksPure, List.countP_cons, ih (idx + 1), isStripedRowIdxB,
        List.length_cons]
      by_cases h : idx = i
      · subst h
        have h1 : ¬(idx + 1 ≤ idx ∧ idx < idx + 1 + rest.length ∧ idx % 2 = 1) := by omega
        rw [if_neg h1]
        by_cases ho : idx % 2 = 1
        · have h2 : idx ≤ idx ∧ idx < idx + (rest.length + 1) ∧ idx % 2 = 1 :=
            ⟨Nat.le_refl idx, by omega, ho⟩
          rw [if_pos h2]
          have hb : (idx == idx && (idx % 2 == 1)) = true := by simp [ho]
          simp [hb]
          exact ho
        · have h2 : ¬(idx ≤ idx ∧ idx < idx + (rest.length + 1) ∧ idx % 2 = 1) := by
            intro hc
            exact ho hc.2.2
          rw [if_neg h2]
          have hb : (idx == idx && (idx % 2 == 1)) = false := by
            have : (idx % 2 == 1) = false := by simpa using ho
            simp [this]
          simp [hb]
          omega
      · have h3 : (idx + 1 ≤ i ∧ i < idx + 1 + rest.length ∧ i % 2 = 1)
            ↔ (idx ≤ i ∧ i < idx + (rest.length + 1) ∧ i % 2 = 1) := by omega
        rw [if_congr h3 rfl rfl]
        have h4 : (idx == i) = false := by simpa using h
        simp [h4]

/-- A full render's block sequence is the content blocks followed by one
footer line per buffered page. -/
theorem renderedBlocks_decomp (data : QuotationPDFData) (opts : PDFOptions)
    (env : RenderEnv) (th : String → ℤ) :
    ∃ (company : CompanyBranding) (design : ProposalDesign)
      (logo : Option (List ℕ)) (n : ℕ),
    renderedBlocks data opts env th
      = pdfContentBlocks data company design logo
        ++ (List.range n).map (fun i =>
            Block.footerLine i (footerTextOf data company) (pageLabel i n)) := by
  refine ⟨opts.company.getD DEFAULT_COMPANY, opts.design.getD DEFAULT_PROPOSAL_DESIGN,
    (if (opts.design.getD DEFAULT_PROPOSAL_DESIGN).showLogo ∧
        (opts.company.getD DEFAULT_COMPANY).logoUrl ≠ "" then
       env.fetchLogo (opts.company.getD DEFAULT_COMPANY).logoUrl else none),
    (pdfLayoutCore data (opts.company.getD DEFAULT_COMPANY)
      (opts.design.getD DEFAULT_PROPOSAL_DESIGN)
      (if (opts.design.getD DEFAULT_PROPOSAL_DESIGN).showLogo ∧
          (opts.company.getD DEFAULT_COMPANY).logoUrl ≠ "" then
         env.fetchLogo (opts.company.getD DEFAULT_COMPANY).logoUrl else none) th).2.page + 1,
    ?_⟩
  simp only [renderedBlocks, generateQuotationPDF, pdfLayout, List.map_append, List.map_map]
  rw [pdfLayoutCore_blocks]
  rfl

/-! ## Concrete render inputs used by counterexamples and witnesses -/

/-- A plain line item. -/
def sampleItem : QuotationLineItem :=
  ⟨"item-1", "Motor WEG 5CV", "un", JSNum.ofInt 2, JSNum.ofInt 1500, JSNum.ofInt 0,
   JSNum.ofInt 3000⟩

/-- A 32-item quotation with no free texts: with the default A4/medium
geometry its item table overflows page 0. -/
def longTableData : QuotationPDFData :=
  ⟨"COT-202601-0001", "2026-01-01", 30, "Cliente X", none, none, none, none, none,
   none, none, List.replicate 32 sampleItem,
   ⟨"", "", "", JSNum.ofInt 0, ""⟩, ⟨"", "", "", "", "", ""⟩,
   "96000", "0", "96000"⟩

/-- A one-item quotation whose freight type label is empty while the
freight value is positive. -/
def emptyFreightData : QuotationPDFData :=
  ⟨"COT-202601-0002", "2026-01-02", 30, "Cliente Y", none, none, none, none, none,
   none, none, [sampleItem],
   ⟨"30 dias", "15 dias úteis", "", JSNum.ofInt 250, "12 meses"⟩,
   ⟨"", "", "", "", "", ""⟩,
   "3000", "0", "3250"⟩

/-- A branding override with no logo URL. -/
def plainCompany : CompanyBranding := ⟨"Empresa Exemplo", "", "", "", "", "", "", ""⟩

/-- The default A4/medium design with the logo disabled. -/
def plainDesign : ProposalDesign :=
  ⟨"#1A1A2E", "#FFFFFF", "#FF4B4B", "#FFFFFF", "#1A1A2E", "#E2E2EA",
   "#1A1A2E", "#FFFFFF", "#F8F8FC", "DM Sans", "DM Sans", "DM Mono",
   "medium", false, true, "left", "A4"⟩

/-- An environment whose logo fetch always fails. -/
def noLogoEnv : RenderEnv := ⟨fun _ => none, 0⟩

/-! ## Claim C1 — table pagination -/

/-- C1 — counterexample.  The claim states the table header block is
reprinted at the top of each continuation page.  Rendering the 32-item
quotation (A4, medium) sends rows 31+ to page 1, where a table row is
present but no table header block is: the header is never reprinted. -/
theorem C1_header_not_reprinted_cex :
    ((generateQuotationPDF longTableData ⟨some plainCompany, some plainDesign⟩
        noLogoEnv (fun _ => 0)).any
      (fun p => decide (p.page = 1) && isRowIdxB 31 p.block)) = true ∧
    ((generateQuotationPDF longTableData ⟨some plainCompany, some plainDesign⟩
        noLogoEnv (fun _ => 0)).all
      (fun p => decide (p.page = 0) || !isTableHeaderB p.block)) = true := by
  exact ⟨by decide, by decide⟩

/-- C1 (amended): when the item table overflows a page, its rows are
distributed across pages, but the table header block is emitted exactly
once in the whole document (before the first row) and is not reprinted on
continuation pages; every non-row block is emitted atomically at a single
position (the table, conditions and text-section starts move to a fresh
page when the cursor exceeds their fixed thresholds). -/
theorem C1_table_pagination (data : QuotationPDFData) (opts : PDFOptions)
    (env : RenderEnv) (th : String → ℤ) :
    (renderedBlocks data opts env th).countP isTableHeaderB = 1
    ∧ ∀ i, i < data.items.length →
        (renderedBlocks data opts env th).countP (isRowIdxB i) = 1 := by
  obtain ⟨company, design, logo, n, hd⟩ := renderedBlocks_decomp data opts env th
  constructor
  · rw [hd, List.countP_append,
      countP_map_zero isTableHeaderB
        (fun i => Block.footerLine i (footerTextOf data company) (pageLabel i n))
        (fun i => rfl) (List.range n)]
    simp only [pdfContentBlocks, List.countP_append, countP_ite_singleton,
      List.countP_cons, List.countP_nil, countP_filter_map,
      rowBlocksPure_countP_zero isTableHeaderB (fun i s it => rfl)]
    simp [isTableHeaderB]
  · intro i hi
    rw [hd, List.countP_append,
      countP_map_zero (isRowIdxB i)
        (fun j => Block.footerLine j (footerTextOf data company) (pageLabel j n))
        (fun j => rfl) (List.range n)]
    simp only [pdfContentBlocks, List.countP_append, countP_ite_singleton,
      List.countP_cons, List.countP_nil, countP_filter_map,
      rowBlocksPure_countP_idx]
    have hcond : 0 ≤ i ∧ i < 0 + data.items.length := ⟨Nat.zero_le i, by omega⟩
    rw [if_pos hcond]
    simp [isRowIdxB]

/-- C1 — witness: the amended claim applied to the 32-item render at row 0. -/
theorem C1_table_pagination_witness :
    (renderedBlocks longTableData ⟨some plainCompany, some plainDesign⟩
        noLogoEnv (fun _ => 0)).countP (isRowIdxB 0) = 1 :=
  (C1_table_pagination longTableData ⟨some plainCompany, some plainDesign⟩
      noLogoEnv (fun _ => 0)).2 0 (by decide)

/-! ## Claim C8 — absolute-index row striping -/

/-- Screen rows carry consecutive absolute indices striped exactly on odd
index. -/
theorem screenRowsFrom_spec :
    ∀ (items : List QuotationLineItem) (k : ℕ),
    (screenRowsFrom k items).map (fun r => (r.idx, r.striped))
      = (List.range' k items.length).map (fun i => (i, i % 2 == 1)) := by
  intro items
  induction items with
  | nil => intro k; rfl
  | cons it rest ih =>
      intro k
      simp [screenRowsFrom, List.range'_succ, ih]

/-- C8: in the PDF renderer, the row with absolute index `i` is drawn
with the striped background exactly when `i` is odd — the index is the
absolute position in the full item list, not the position within the
current page, so a table split across pages keeps strict alternation; the
screen renderer's rows carry the same absolute-index parity striping. -/
theorem C8_row_striping (data : QuotationPDFData) (opts : PDFOptions)
    (env : RenderEnv) (th : String → ℤ) (items : List QuotationLineItem) :
    (∀ i, i < data.items.length →
      (renderedBlocks data opts env th).countP (isStripedRowIdxB i)
        = if i % 2 = 1 then 1 else 0)
    ∧ (screenItemRows items).map (fun r => (r.idx, r.striped))
        = (List.range items.length).map (fun i => (i, i % 2 == 1)) := by
  constructor
  · intro i hi
    obtain ⟨company, design, logo, n, hd⟩ := renderedBlocks_decomp data opts env th
    rw [hd, List.countP_append,
      countP_map_zero (isStripedRowIdxB i)
        (fun j => Block.footerLine j (footerTextOf data company) (pageLabel j n))
        (fun j => rfl) (List.range n)]
    simp only [pdfContentBlocks, List.countP_append, countP_ite_singleton,
      List.countP_cons, List.countP_nil, countP_filter_map,
      rowBlocksPure_countP_striped]
    have hlt : i < 0 + data.items.length := by omega
    by_cases ho : i % 2 = 1
    · simp [isStripedRowIdxB, ho, hlt]
      exact hi
    · simp [isStripedRowIdxB, ho, hlt]
  · rw [screenItemRows, screenRowsFrom_spec, List.range_eq_range']

/-- C8 — witness: in the 32-item render, row 1 is striped (count 1) and
row 0 is not (count 0). -/
theorem C8_row_striping_witness :
    (renderedBlocks longTableData ⟨some plainCompany, some plainDesign⟩
        noLogoEnv (fun _ => 0)).countP (isStripedRowIdxB 1) = 1 ∧
    (renderedBlocks longTableData ⟨some plainCompany, some plainDesign⟩
        noLogoEnv (fun _ => 0)).countP (isStripedRowIdxB 0) = 0 := by
  have h1 := (C8_row_striping longTableData ⟨some plainCompany, some plainDesign⟩
      noLogoEnv (fun _ => 0) []).1 1 (by decide)
  have h0 := (C8_row_striping longTableData ⟨some plainCompany, some plainDesign⟩
      noLogoEnv (fun _ => 0) []).1 0 (by decide)
  rw [if_pos (by decide)] at h1
  rw [if_neg (by decide)] at h0
  exact ⟨h1, h0⟩

/-! ## Claim C3 — the totals panel -/

/-- Totals-panel contents as the spec's §8 "Totals arithmetic" bullet
words them: subtotal always; discount line exactly when the discount is
positive; freight line exactly when the freight value is positive; the
emphasized grand total always; every amount currency-formatted from the
input strings, never recomputed from the items. -/
def totalsPanelSpec (data : QuotationPDFData) : List Block :=
  [Block.totalsSubtotal (formatCurrency (NumOrStr.str data.subtotal))]
  ++ (if jsGtZero (jsParseFloat data.totalDiscount) then
        [Block.totalsDiscount ("-" ++ formatCurrency (NumOrStr.str data.totalDiscount))] else [])
  ++ (if jsGtZero data.conditions.freightValue then
        [Block.totalsFreight (formatCurrency (NumOrStr.num data.conditions.freightValue))] else [])
  ++ [Block.totalsGrand (formatCurrency (NumOrStr.str data.grandTotal))]

/-- A mapped list keeps nothing when `p` rejects the image of `f`. -/
theorem filter_map_nil {α : Type} (p : Block → Bool) (f : α → Block)
    (h : ∀ a, p (f a) = false) : ∀ l : List α, (l.map f).filter p = [] := by
  intro l
  induction l with
  | nil => rfl
  | cons a r ih => simp [List.filter_cons, h, ih]

/-- The totals lines of any render are exactly `totalsPanelSpec`. -/
theorem rendered_totals_filter (data : QuotationPDFData) (opts : PDFOptions)
    (env : RenderEnv) (th : String → ℤ) :
    (renderedBlocks data opts env th).filter isTotalsB = totalsPanelSpec data := by
  obtain ⟨company, design, logo, n, hd⟩ := renderedBlocks_decomp data opts env th
  rw [hd, List.filter_append,
    filter_map_nil isTotalsB
      (fun i => Block.footerLine i (footerTextOf data company) (pageLabel i n))
      (fun i => rfl) (List.range n)]
  simp only [pdfContentBlocks, List.filter_append, filter_ite_singleton,
    List.filter_cons, List.filter_nil,
    filter_map_nil isTotalsB (fun pr => Block.customerField pr.1 (pr.2.getD ""))
      (fun pr => rfl) ((customerFieldsOf data).filter (fun pr => truthy pr.2)),
    filter_map_nil isTotalsB (fun pr => Block.conditionField pr.1 (pr.2.getD ""))
      (fun pr => rfl) ((condFieldsOf data).filter (fun pr => truthy pr.2)),
    filter_map_nil isTotalsB
      (fun sec => Block.textSection sec.1 (interpolateVars sec.2 (varsMap data company)))
      (fun sec => rfl)
      ((sectionsOf data.texts).filter (fun sec => decide (sec.2 ≠ ""))),
    rowBlocksPure_filter_nil isTotalsB (fun i s it => rfl)]
  simp [totalsPanelSpec, isTotalsB]

/-- C3: the rendered totals panel consists of the subtotal line (always),
the discount line exactly when the parsed total discount is positive, the
freight line exactly when the freight value is positive, and the
emphasized grand-total line (always) — each amount echoed verbatim from
the corresponding input value, currency-formatted (the discount with a
leading minus sign) — and the panel is unchanged under any replacement of
the line items, i.e. never recomputed from them. -/
theorem C3_totals_panel (data : QuotationPDFData) (opts : PDFOptions)
    (env : RenderEnv) (th : String → ℤ) :
    (renderedBlocks data opts env th).filter isTotalsB = totalsPanelSpec data
    ∧ ∀ items2 : List QuotationLineItem,
        (renderedBlocks { data with items := items2 } opts env th).filter isTotalsB
          = totalsPanelSpec data := by
  exact ⟨rendered_totals_filter data opts env th,
    fun items2 => rendered_totals_filter { data with items := items2 } opts env th⟩

/-! ## Claim C4 — render determinism -/

/-- C4: with the logo fetch held fixed, the render depends on nothing
else in the environment — in particular not on the clock — so two calls
of the render entry point on the same (quotation, options) input produce
identical traces. -/
theorem C4_render_determinism (data : QuotationPDFData) (opts : PDFOptions)
    (th : String → ℤ) (env1 env2 : RenderEnv)
    (h : env1.fetchLogo = env2.fetchLogo) :
    generateQuotationPDF data opts env1 th = generateQuotationPDF data opts env2 th := by
  simp only [generateQuotationPDF, h]

/-- C4 — witness: two environments with the same (failing) logo fetch but
different clocks render the 32-item quotation identically. -/
theorem C4_render_determinism_witness :
    generateQuotationPDF longTableData ⟨some plainCompany, some plainDesign⟩
        ⟨fun _ => none, 0⟩ (fun _ => 1200)
      = generateQuotationPDF longTableData ⟨some plainCompany, some plainDesign⟩
        ⟨fun _ => none, 999⟩ (fun _ => 1200) :=
  C4_render_determinism longTableData ⟨some plainCompany, some plainDesign⟩
    (fun _ => 1200) ⟨fun _ => none, 0⟩ ⟨fun _ => none, 999⟩ rfl

/-! ## Claim C5 — field-skip invariant -/

/-- Customer-label lines in any render come from the truthy customer
fields only. -/
theorem rendered_countP_customer (data : QuotationPDFData) (opts : PDFOptions)
    (env : RenderEnv) (th : String → ℤ) (l : String) :
    (renderedBlocks data opts env th).countP (isCustomerLabelB l)
      = (customerFieldsOf data).countP (fun pr => truthy pr.2 && (pr.1 == l)) := by
  obtain ⟨company, design, logo, n, hd⟩ := renderedBlocks_decomp data opts env th
  rw [hd, List.countP_append,
    countP_map_zero (isCustomerLabelB l)
      (fun i => Block.footerLine i (footerTextOf data company) (pageLabel i n))
      (fun i => rfl) (List.range n)]
  simp only [pdfContentBlocks, List.countP_append, countP_ite_singleton,
    List.countP_cons, List.countP_nil, countP_filter_map,
    rowBlocksPure_countP_zero (isCustomerLabelB l) (fun i s it => rfl)]
  simp [isCustomerLabelB]

/-- Condition-label lines in any render come from the truthy condition
fields only. -/
theorem rendered_countP_cond (data : QuotationPDFData) (opts : PDFOptions)
    (env : RenderEnv) (th : String → ℤ) (l : String) :
    (renderedBlocks data opts env th).countP (isCondLabelB l)
      = (condFieldsOf data).countP (fun pr => truthy pr.2 && (pr.1 == l)) := by
  obtain ⟨company, design, logo, n, hd⟩ := renderedBlocks_decomp data opts env th
  rw [hd, List.countP_append,
    countP_map_zero (isCondLabelB l)
      (fun i => Block.footerLine i (footerTextOf data company) (pageLabel i n))
      (fun i => rfl) (List.range n)]
  simp only [pdfContentBlocks, List.countP_append, countP_ite_singleton,
    List.countP_cons, List.countP_nil, countP_filter_map,
    rowBlocksPure_countP_zero (isCondLabelB l) (fun i s it => rfl)]
  simp [isCondLabelB]

/-- The totals-panel freight line appears exactly when the freight value
is positive. -/
theorem rendered_countP_totals_freight (data : QuotationPDFData) (opts : PDFOptions)
    (env : RenderEnv) (th : String → ℤ) :
    (renderedBlocks data opts env th).countP isTotalsFreightB
      = if jsGtZero data.conditions.freightValue then 1 else 0 := by
  obtain ⟨company, design, logo, n, hd⟩ := renderedBlocks_decomp data opts env th
  rw [hd, List.countP_append,
    countP_map_zero isTotalsFreightB
      (fun i => Block.footerLine i (footerTextOf data company) (pageLabel i n))
      (fun i => rfl) (List.range n)]
  simp only [pdfContentBlocks, List.countP_append, countP_ite_singleton,
    List.countP_cons, List.countP_nil, countP_filter_map,
    rowBlocksPure_countP_zero isTotalsFreightB (fun i s it => rfl)]
  simp [isTotalsFreightB]

/-- A string equals `""` exactly when its character list is empty. -/
theorem string_eq_empty_iff (s : String) : s = "" ↔ s.data = [] := by
  cases s
  simp [String.ext_iff]

/-- String concatenation is empty exactly when both parts are. -/
theorem string_append_eq_empty (a b : String) : a ++ b = "" ↔ a = "" ∧ b = "" := by
  simp [string_eq_empty_iff, String.data_append]

/-- C5 — counterexample.  The claim says an empty condition field never
has its label rendered; with freight type label `""` and freight value
250 the render emits both a conditions line labelled `Frete` and the
totals freight line. -/
theorem C5_freight_label_cex :
    emptyFreightData.conditions.freight = "" ∧
    (renderedBlocks emptyFreightData ⟨some plainCompany, some plainDesign⟩
        noLogoEnv (fun _ => 0)).countP (isCondLabelB "Frete") = 1 ∧
    (renderedBlocks emptyFreightData ⟨some plainCompany, some plainDesign⟩
        noLogoEnv (fun _ => 0)).countP isTotalsFreightB = 1 := by
  exact ⟨by decide, by decide, by decide⟩

/-- C5 (amended): an optional customer field (company, tax ID, email,
phone, address) or a paymentTerms/deliveryTime/warranty condition field
that is empty or null has no labelled line anywhere in the render; the
freight label is the exception: its conditions line appears whenever the
freight type label is non-empty **or** the freight value is positive
(so an empty freight label still gets a `Frete` line when the value is
positive), and the totals freight line appears exactly when the freight
value is positive. -/
theorem C5_field_skip (data : QuotationPDFData) (opts : PDFOptions)
    (env : RenderEnv) (th : String → ℤ) :
    (data.customerCompany.getD "" = "" →
      (renderedBlocks data opts env th).countP (isCustomerLabelB "Empresa") = 0)
    ∧ (data.customerCNPJ.getD "" = "" →
      (renderedBlocks data opts env th).countP (isCustomerLabelB "CNPJ") = 0)
    ∧ (data.customerEmail.getD "" = "" →
      (renderedBlocks data opts env th).countP (isCustomerLabelB "E-mail") = 0)
    ∧ (data.customerPhone.getD "" = "" →
      (renderedBlocks data opts env th).countP (isCustomerLabelB "Telefone") = 0)
    ∧ (data.customerAddress.getD "" = "" →
      (renderedBlocks data opts env th).countP (isCustomerLabelB "Endereço") = 0)
    ∧ (data.conditions.paymentTerms = "" →
      (renderedBlocks data opts env th).countP (isCondLabelB "Pagamento") = 0)
    ∧ (data.conditions.deliveryTime = "" →
      (renderedBlocks data opts env th).countP (isCondLabelB "Prazo de Entrega") = 0)
    ∧ (data.conditions.warranty = "" →
      (renderedBlocks data opts env th).countP (isCondLabelB "Garantia") = 0)
    ∧ (renderedBlocks data opts env th).countP (isCondLabelB "Frete")
        = (if data.conditions.freight ≠ "" ∨ jsGtZero data.conditions.freightValue
           then 1 else 0)
    ∧ (renderedBlocks data opts env th).countP isTotalsFreightB
        = (if jsGtZero data.conditions.freightValue then 1 else 0) := by
  refine ⟨?_, ?_, ?_, ?_, ?_, ?_, ?_, ?_, ?_,
    rendered_countP_totals_freight data opts env th⟩
  · intro h
    rw [rendered_countP_customer]
    simp [customerFieldsOf, truthy, h]
  · intro h
    rw [rendered_countP_customer]
    simp [customerFieldsOf, truthy, h]
  · intro h
    rw [rendered_countP_customer]
    simp [customerFieldsOf, truthy, h]
  · intro h
    rw [rendered_countP_customer]
    simp [customerFieldsOf, truthy, h]
  · intro h
    rw [rendered_countP_customer]
    simp [customerFieldsOf, truthy, h]
  · intro h
    rw [rendered_countP_cond]
    simp [condFieldsOf, truthy, h]
  · intro h
    rw [rendered_countP_cond]
    simp [condFieldsOf, truthy, h]
  · intro h
    rw [rendered_countP_cond]
    simp [condFieldsOf, truthy, h]
  · rw [rendered_countP_cond]
    by_cases hg : jsGtZero data.conditions.freightValue = true
    · have hne : data.conditions.freight ++
          (if jsGtZero data.conditions.freightValue = true then
            " (" ++ formatCurrency (NumOrStr.num data.conditions.freightValue) ++ ")"
           else "") ≠ "" := by
        rw [if_pos hg]
        simp [string_append_eq_empty]
      rw [if_pos (Or.inr hg)]
      simp [condFieldsOf, truthy, hne, hg]
      simp [string_append_eq_empty]
    · by_cases hf : data.conditions.freight = ""
      · rw [if_neg (by simp [hf, hg])]
        simp [condFieldsOf, truthy, hf, hg]
      · have hne : data.conditions.freight ++
            (if jsGtZero data.conditions.freightValue = true then
              " (" ++ formatCurrency (NumOrStr.num data.conditions.freightValue) ++ ")"
             else "") ≠ "" := by
          rw [if_neg hg]
          simp [string_append_eq_empty, hf]
        rw [if_pos (Or.inl hf)]
        simp [condFieldsOf, truthy, hne, hg]
        simp [hf]

/-- C5 — witness: the amended claim applied to the empty-freight
quotation (whose customer company is null): no `Empresa` line, and the
`Frete` lines appear by the freight-value disjunct. -/
theorem C5_field_skip_witness :
    (renderedBlocks emptyFreightData ⟨some plainCompany, some plainDesign⟩
        noLogoEnv (fun _ => 0)).countP (isCustomerLabelB "Empresa") = 0 ∧
    (renderedBlocks emptyFreightData ⟨some plainCompany, some plainDesign⟩
        noLogoEnv (fun _ => 0)).countP (isCondLabelB "Frete")
      = (if emptyFreightData.conditions.freight ≠ ""
            ∨ jsGtZero emptyFreightData.conditions.freightValue then 1 else 0) :=
  ⟨(C5_field_skip emptyFreightData ⟨some plainCompany, some plainDesign⟩
      noLogoEnv (fun _ => 0)).1 (by decide),
   (C5_field_skip emptyFreightData ⟨some plainCompany, some plainDesign⟩
      noLogoEnv (fun _ => 0)).2.2.2.2.2.2.2.2.1⟩

end GQ
